import Mathlib

/-!
Formal model of the MonConvert video-conversion service (src/app.py).

The application is a small HTTP service with three routes: an index page,
a rate-limited upload route that validates an incoming video file, saves it
to a temporary path, invokes an external encoder, and cleans up its
temporary files on every exit path, and a single-use download route.

The shallow embedding below translates each component of src/app.py into a
Lean definition.  The filesystem is modelled as a finite set of file paths
plus a set of directory names; the external encoder and the external
sanitizer (werkzeug.utils.secure_filename) are modelled explicitly; clock
values (Python time.time floats) are modelled as rationals.
-/

namespace MonConvert

/-! ### Configuration constants (src/app.py lines 15-20, 26) -/

def UPLOAD_FOLDER : String := "uploads"

def CONVERTED_FOLDER : String := "converted"

def ALLOWED_EXTENSIONS : List String :=
  ["mp4", "avi", "mov", "wmv", "flv", "mkv", "webm", "mpeg", "mpg", "m4v"]

def MAX_FILE_SIZE_MB : Nat := 100

def MAX_CONTENT_LENGTH : Nat := MAX_FILE_SIZE_MB * 1024 * 1024

def RATE_LIMIT_REQUESTS : Nat := 5

def RATE_LIMIT_WINDOW_SECONDS : ℚ := 60

/-! ### Filesystem model

A file path is a directory plus a base name, mirroring
os.path.join(folder, name).  The filesystem state is the set of existing
regular files together with the set of existing directories. -/

structure FsPath where
  dir : String
  base : String
deriving DecidableEq

structure FS where
  files : List FsPath
  dirs : List String
deriving DecidableEq

def FS.hasFile (fs : FS) (p : FsPath) : Prop := p ∈ fs.files

instance (fs : FS) (p : FsPath) : Decidable (fs.hasFile p) := by
  unfold FS.hasFile
  infer_instance

def FS.write (fs : FS) (p : FsPath) : FS :=
  { fs with files := p :: fs.files }

def FS.removeFile (fs : FS) (p : FsPath) : FS :=
  { fs with files := fs.files.filter (fun q => q ≠ p) }

def FS.mkdir (fs : FS) (d : String) : FS :=
  if d ∈ fs.dirs then fs else { fs with dirs := d :: fs.dirs }

/-- Model of cleanup_file (src/app.py lines 47-54): if the path variable is
set (not None) and the file exists, remove it; otherwise do nothing.  The
OSError branch only logs, so deletion is modelled as succeeding. -/
def cleanup_file (fs : FS) (p : Option FsPath) : FS :=
  match p with
  | none => fs
  | some q => if fs.hasFile q then fs.removeFile q else fs

/-- Model of create_temp_dirs (src/app.py lines 42-45): os.makedirs with
exist_ok for the upload and converted directories. -/
def create_temp_dirs (fs : FS) : FS :=
  (fs.mkdir UPLOAD_FOLDER).mkdir CONVERTED_FOLDER

/-! ### Validator helpers -/

/-- Model of Python str.lower for ASCII strings. -/
def lower_str (s : String) : String := String.mk (s.data.map Char.toLower)

/-- The part of the filename after its last dot, as computed by Python
rsplit with separator dot and maxsplit one, index one.  Meaningful only
when the filename contains a dot (the callers check that first). -/
def ext_of (filename : String) : String :=
  String.mk ((filename.data.reverse.takeWhile (fun c => c ≠ '.')).reverse)

/-- Model of allowed_file (src/app.py lines 37-40): the filename contains a
dot and the lowercased part after the last dot is an allowed extension. -/
def allowed_file (filename : String) : Bool :=
  filename.data.contains '.' &&
    ALLOWED_EXTENSIONS.contains (lower_str (ext_of filename))

/-! ### Sanitizer model (werkzeug.utils.secure_filename)

The upload and download handlers call werkzeug's secure_filename, an
external dependency.  The handlers below are parameterized by an arbitrary
sanitize function; secure_filename is the concrete model of werkzeug's
implementation restricted to ASCII input on a POSIX system: path
separators become spaces, whitespace-separated words are joined with
single underscores, characters outside A-Z a-z 0-9 underscore dot hyphen
are dropped, and leading or trailing dots and underscores are stripped. -/

def filename_char_ok (c : Char) : Bool :=
  c.isAlphanum || c = '_' || c = '.' || c = '-'

def strip_edge_char (c : Char) : Bool := c = '.' || c = '_'

def is_space_char (c : Char) : Bool :=
  c = ' ' || c = '\t' || c = '\n' || c = '\r'

/-- Splits a character list into maximal runs of non-whitespace characters,
dropping empty runs, like Python str.split with no argument. -/
def words_aux (ws : Char → Bool) : List Char → List Char → List (List Char)
  | [], cur => if cur.isEmpty then [] else [cur.reverse]
  | c :: rest, cur =>
      if ws c then
        if cur.isEmpty then words_aux ws rest []
        else cur.reverse :: words_aux ws rest []
      else words_aux ws rest (c :: cur)

def secure_filename (filename : String) : String :=
  let replaced := filename.data.map (fun c => if c = '/' then ' ' else c)
  let pieces := words_aux is_space_char replaced []
  let joined := List.intercalate ['_'] pieces
  let kept := joined.filter filename_char_ok
  String.mk (((kept.dropWhile strip_edge_char).reverse.dropWhile strip_edge_char).reverse)

/-! ### HTTP responses

A response is a status code, a body (the human-readable message, or the
result filename on upload success), and, for the download route, the file
streamed as an attachment. -/

structure Resp where
  status : Nat
  body : String
  sentFile : Option FsPath
deriving DecidableEq

def respNoFilePart : Resp := ⟨400, "No file part provided.", none⟩

def respNoFileSelected : Resp := ⟨400, "No file selected.", none⟩

def respInvalidType : Resp := ⟨400, "Invalid file type.", none⟩

def respTooLarge : Resp := ⟨413, "File is too large. Maximum size is 100 MB.", none⟩

def respConversionFailed : Resp :=
  ⟨500, "Video conversion failed. The format might be unsupported or the file corrupted.", none⟩

def respInternalFault : Resp := ⟨500, "An internal server error occurred.", none⟩

def respRateLimited : Resp := ⟨429, "Rate limit exceeded.", none⟩

def respInvalidFilename : Resp := ⟨400, "Invalid filename", none⟩

def respFileNotFound : Resp := ⟨404, "File not found.", none⟩

/-! ### Upload request and validation -/

/-- The parts of an incoming multipart POST /upload request the handler
inspects: whether the videoFile part is present, its filename, the declared
content length (None when the client does not declare one; Python treats a
declared length of 0 as falsy), and the optional form fields. -/
structure UploadRequest where
  hasFilePart : Bool
  filename : String
  contentLength : Option Nat
  compression : Option String
  resolution : Option String

/-- The validation cascade of upload_file (src/app.py lines 106-125), in
source order, short-circuiting at the first failing check: file part
present, filename non-empty, extension allowed, declared content length
(when present and nonzero) within the limit.  Returns the error response,
or none when validation passes. -/
def upload_validate (req : UploadRequest) : Option Resp :=
  if req.hasFilePart = false then some respNoFilePart
  else if req.filename = "" then some respNoFileSelected
  else if allowed_file req.filename = false then some respInvalidType
  else
    match req.contentLength with
    | some n => if n ≠ 0 ∧ MAX_CONTENT_LENGTH < n then some respTooLarge else none
    | none => none

/-- The validation cascade as the specification words it: (a) a file part
is present; (b) filename is non-empty; (c) the filename extension is in the
allowed set case-insensitively; (d) if a declared content length is
available, it does not exceed the configured maximum. -/
def validate_spec (req : UploadRequest) : Option Resp :=
  if req.hasFilePart = false then some respNoFilePart
  else if req.filename = "" then some respNoFileSelected
  else if allowed_file req.filename = false then some respInvalidType
  else
    match req.contentLength with
    | some n => if MAX_CONTENT_LENGTH < n then some respTooLarge else none
    | none => none

/-! ### Rate limiter (src/app.py lines 57-77)

The store maps a client address to its list of recorded request
timestamps; defaultdict(list) yields the empty list for unknown keys. -/

abbrev Store := String → List ℚ

def Store.set (st : Store) (ip : String) (l : List ℚ) : Store :=
  fun j => if j = ip then l else st j

/-- The pruning step (line 66): keep exactly the timestamps ts with
now - ts < window. -/
def prune (window now : ℚ) (tss : List ℚ) : List ℚ :=
  tss.filter (fun ts => now - ts < window)

/-- One admission decision for one client (the body of decorated_function,
lines 61-75, acting on that client's list): prune, store the pruned list,
reject if the pruned count reaches the limit, otherwise append now and
accept.  Returns the decision and the list left in the store. -/
def rate_limit_step (limit : Nat) (window now : ℚ) (tss : List ℚ) : Bool × List ℚ :=
  let pruned := prune window now tss
  if limit ≤ pruned.length then (false, pruned) else (true, pruned ++ [now])

/-- The admission step as the claim words it: first discard the timestamps
older than now - window (that is, keep every ts with now - window ≤ ts),
then reject without recording if the remaining count reaches the limit,
otherwise record now and accept. -/
def prune_claim (window now : ℚ) (tss : List ℚ) : List ℚ :=
  tss.filter (fun ts => now - window ≤ ts)

def rate_limit_step_claim (limit : Nat) (window now : ℚ) (tss : List ℚ) : Bool × List ℚ :=
  let pruned := prune_claim window now tss
  if limit ≤ pruned.length then (false, pruned) else (true, pruned ++ [now])

/-- Folds a sequence of admission calls for one client over its stored
list, counting the accepted calls. -/
def runAdmits (limit : Nat) (window : ℚ) : List ℚ → List ℚ → Nat × List ℚ
  | [], tss => (0, tss)
  | t :: rest, tss =>
      let step := rate_limit_step limit window t tss
      let tail := runAdmits limit window rest step.2
      ((if step.1 then 1 else 0) + tail.1, tail.2)

/-! ### FFmpeg command construction (src/app.py lines 144-180) -/

/-- Form-field extraction with default and lowercasing, as in
request.form.get(key, default).lower(). -/
def form_option (v : Option String) (dflt : String) : String :=
  lower_str (v.getD dflt)

def standard_output_args (converted_path : String) : List String :=
  ["-codec:v", "libx264", "-preset", "medium", "-codec:a", "aac",
   "-b:a", "128k", "-movflags", "+faststart", "-y", "-hide_banner",
   "-loglevel", "error", converted_path]

/-- The ffmpeg invocation built by upload_file after lowercasing and
defaulting the form values: base command, CRF flags by compression level,
optional scale filter by resolution, then the fixed output options. -/
def build_ffmpeg_command (upload_path compression resolution converted_path : String) :
    List String :=
  (["ffmpeg", "-i", upload_path]
    ++ (if compression = "low" then ["-crf", "18"]
        else if compression = "high" then ["-crf", "28"]
        else ["-crf", "23"]))
    ++ (if resolution = "1080p" then ["-vf", "scale=-2:1080"]
        else if resolution = "720p" then ["-vf", "scale=-2:720"]
        else if resolution = "480p" then ["-vf", "scale=-2:480"]
        else [])
    ++ standard_output_args converted_path

/-- The quality preset as the specification words it: three fixed presets,
low maps to the high-quality setting 18, medium to the balanced default 23,
high to the high-compression setting 28, and any other value falls back to
the medium default. -/
def crf_preset_spec (c : String) : String :=
  if c = "low" then "18"
  else if c = "medium" then "23"
  else if c = "high" then "28"
  else "23"

/-- The scaling filter as the specification words it: a height-locked,
even-width scale for the three recognized resolutions, and no filter for
original or any unrecognized value. -/
def scale_filter_spec (r : String) : List String :=
  if r = "480p" then ["-vf", "scale=-2:480"]
  else if r = "720p" then ["-vf", "scale=-2:720"]
  else if r = "1080p" then ["-vf", "scale=-2:1080"]
  else []

def ffmpeg_command_spec (upload_path compression resolution converted_path : String) :
    List String :=
  ["ffmpeg", "-i", upload_path, "-crf", crf_preset_spec compression]
    ++ scale_filter_spec resolution
    ++ standard_output_args converted_path

/-! ### Upload handler (src/app.py lines 95-211) -/

/-- Outcome of the save-and-convert stage, absorbing the external
encoder.  success: subprocess.run returns (with check set, its returncode
is 0) and the output file is written.  encFail: the encoder exits nonzero,
subprocess.run raises CalledProcessError, and the output file may have
been partially written.  fault: an unexpected exception is raised before
subprocess.run completes (so the process variable is never bound); the
upload may or may not have been saved and the output may or may not have
been partially written. -/
inductive RunOutcome where
  | success
  | encFail (partOut : Bool)
  | fault (saved partOut : Bool)

/-- The input temp path reserved by upload_file (lines 128-133): the
sanitized original filename supplies the extension, the fresh unique id
the stem. -/
def upload_path_of (sanitize : String → String) (uid : String) (req : UploadRequest) :
    FsPath :=
  let original := sanitize req.filename
  let ext := if original.data.contains '.' then lower_str (ext_of original) else ""
  ⟨UPLOAD_FOLDER, uid ++ "." ++ ext⟩

/-- The output path reserved by upload_file (lines 136-137). -/
def converted_path_of (uid : String) : FsPath :=
  ⟨CONVERTED_FOLDER, uid ++ ".mp4"⟩

/-- The upload_file handler body (inside the rate-limit decorator):
ensure the temp directories exist, run the validation cascade, save the
upload, run the encoder, and in the finally block always clean up the
upload path, and clean up the converted path unless the conversion
completed (the process variable is bound exactly when subprocess.run
returned, and then check implies returncode 0). -/
def upload_file (sanitize : String → String) (uid : String) (run : RunOutcome)
    (req : UploadRequest) (fs0 : FS) : Resp × FS :=
  let fs := create_temp_dirs fs0
  match upload_validate req with
  | some r => (r, fs)
  | none =>
      let up := upload_path_of sanitize uid req
      let cp := converted_path_of uid
      match run with
      | .success =>
          let fs2 := (fs.write up).write cp
          (⟨200, uid ++ ".mp4", none⟩, cleanup_file fs2 (some up))
      | .encFail partOut =>
          let fs1 := fs.write up
          let fs2 := if partOut then fs1.write cp else fs1
          (respConversionFailed, cleanup_file (cleanup_file fs2 (some up)) (some cp))
      | .fault saved partOut =>
          let fs1 := if saved then fs.write up else fs
          let fs2 := if partOut then fs1.write cp else fs1
          (respInternalFault, cleanup_file (cleanup_file fs2 (some up)) (some cp))

/-- The POST /upload route: the rate_limit decorator (applied with the
configured limit and window) wraps upload_file.  The pruned list is stored
before the limit check; on rejection the handler never runs. -/
def upload_route (sanitize : String → String) (uid : String) (run : RunOutcome)
    (ip : String) (now : ℚ) (req : UploadRequest) (st : Store) (fs : FS) :
    Resp × Store × FS :=
  let step := rate_limit_step RATE_LIMIT_REQUESTS RATE_LIMIT_WINDOW_SECONDS now (st ip)
  let st2 := Store.set st ip step.2
  if step.1 then
    let h := upload_file sanitize uid run req fs
    (h.1, st2, h.2)
  else (respRateLimited, st2, fs)

/-! ### Download handler (src/app.py lines 214-246) -/

/-- The GET /download/filename handler: re-sanitize the requested name and
reject with 400 if sanitization changed it, resolve the path under the
converted folder, 404 when no such file exists, otherwise stream the file
and delete it after the response is sent. -/
def download_file (sanitize : String → String) (filename : String) (fs : FS) :
    Resp × FS :=
  let safe := sanitize filename
  if safe ≠ filename then (respInvalidFilename, fs)
  else
    let p : FsPath := ⟨CONVERTED_FOLDER, safe⟩
    if fs.hasFile p then (⟨200, safe, some p⟩, cleanup_file fs (some p))
    else (respFileNotFound, fs)

/-- The GET /download route at the application level: the handler touches
the filesystem only, never the rate-limit store. -/
def download_route (sanitize : String → String) (filename : String)
    (st : Store) (fs : FS) : Resp × Store × FS :=
  let h := download_file sanitize filename fs
  (h.1, st, h.2)

/-- The GET / route (src/app.py lines 81-92): serve index.html from the
current directory, 404 when it is missing. -/
def index_route (st : Store) (fs : FS) : Resp × Store × FS :=
  if fs.hasFile ⟨".", "index.html"⟩ then (⟨200, "index.html", some ⟨".", "index.html"⟩⟩, st, fs)
  else (⟨404, "Error: index.html not found.", none⟩, st, fs)

/-! ### Basic lemmas about the filesystem model -/

theorem FS.hasFile_write (fs : FS) (p q : FsPath) :
    (fs.write p).hasFile q ↔ (q = p ∨ fs.hasFile q) := by
  simp [FS.hasFile, FS.write]

theorem FS.hasFile_removeFile (fs : FS) (p q : FsPath) :
    (fs.removeFile p).hasFile q ↔ (fs.hasFile q ∧ q ≠ p) := by
  simp [FS.hasFile, FS.removeFile, List.mem_filter]

theorem cleanup_file_some (fs : FS) (p : FsPath) :
    cleanup_file fs (some p) = fs.removeFile p := by
  obtain ⟨files, dirs⟩ := fs
  show (if FS.hasFile ⟨files, dirs⟩ p then FS.removeFile ⟨files, dirs⟩ p else ⟨files, dirs⟩) =
    FS.removeFile ⟨files, dirs⟩ p
  split
  · rfl
  · next h =>
      have hf : files.filter (fun q => decide (q ≠ p)) = files :=
        List.filter_eq_self.mpr (by
          intro a ha
          simp only [decide_eq_true_eq]
          rintro rfl
          exact h ha)
      unfold FS.removeFile
      congr 1
      exact hf.symm

theorem FS.files_mkdir (fs : FS) (d : String) : (fs.mkdir d).files = fs.files := by
  unfold FS.mkdir
  split <;> rfl

theorem files_create_temp_dirs (fs : FS) : (create_temp_dirs fs).files = fs.files := by
  unfold create_temp_dirs
  rw [FS.files_mkdir, FS.files_mkdir]

theorem hasFile_create_temp_dirs (fs : FS) (p : FsPath) :
    (create_temp_dirs fs).hasFile p ↔ fs.hasFile p := by
  unfold FS.hasFile
  rw [files_create_temp_dirs]

theorem upload_ne_converted (sanitize : String → String) (uid : String)
    (req : UploadRequest) :
    upload_path_of sanitize uid req ≠ converted_path_of uid := by
  simp [upload_path_of, converted_path_of, UPLOAD_FOLDER, CONVERTED_FOLDER]

/-- Every error response produced by the validation cascade is a client
error: status 400 or 413. -/
theorem upload_validate_status (req : UploadRequest) (r : Resp)
    (h : upload_validate req = some r) : r.status = 400 ∨ r.status = 413 := by
  unfold upload_validate at h
  split at h
  · injection h with h2
    subst h2
    exact Or.inl rfl
  · split at h
    · injection h with h2
      subst h2
      exact Or.inl rfl
    · split at h
      · injection h with h2
        subst h2
        exact Or.inl rfl
      · split at h
        · split at h
          · injection h with h2
            subst h2
            exact Or.inr rfl
          · exact absurd h (by simp)
        · exact absurd h (by simp)

/-- Claim C5: the upload validation performs exactly the specified checks
in the specified order, short-circuiting on the first failure, and decides
extensions case-insensitively: the code cascade coincides with the
specification cascade on every request, "movie.MP4" is accepted while
"movie.exe" and extensionless "movie" are rejected. -/
theorem upload_validation_checks_in_order :
    (∀ req : UploadRequest, upload_validate req = validate_spec req)
    ∧ allowed_file "movie.MP4" = true
    ∧ allowed_file "movie.exe" = false
    ∧ allowed_file "movie" = false := by
  refine ⟨?_, by decide, by decide, by decide⟩
  intro req
  unfold upload_validate validate_spec
  cases h : req.contentLength with
  | none => rfl
  | some n =>
      by_cases hm : MAX_CONTENT_LENGTH < n
      · have hn : n ≠ 0 := by
          unfold MAX_CONTENT_LENGTH MAX_FILE_SIZE_MB at hm
          omega
        simp [hm, hn]
      · simp [hm]

/-- Claim C1: for every /upload request that reaches the handler, after the
handler returns — whether the outcome is success, a validation failure, an
encoder failure, or an unexpected fault — the input temporary file reserved
under the upload directory for that request no longer exists, because
cleanup_file is invoked on the reserved input path in the finally block on
every exit path.  (On paths that never saved the file, freshness of the
minted path gives the same conclusion.) -/
theorem upload_input_temp_file_always_removed (sanitize : String → String)
    (uid : String) (run : RunOutcome) (req : UploadRequest) (fs : FS)
    (hfresh : ¬ fs.hasFile (upload_path_of sanitize uid req)) :
    ¬ (upload_file sanitize uid run req fs).2.hasFile (upload_path_of sanitize uid req) := by
  unfold upload_file
  cases hv : upload_validate req with
  | some r =>
      simp only [hv, hasFile_create_temp_dirs]
      exact hfresh
  | none =>
      cases run with
      | success =>
          simp [hv, cleanup_file_some, FS.hasFile_removeFile]
      | encFail partOut =>
          cases partOut <;>
            simp [hv, cleanup_file_some, FS.hasFile_removeFile]
      | fault saved partOut =>
          cases saved <;> cases partOut <;>
            simp [hv, cleanup_file_some, FS.hasFile_removeFile]

theorem upload_input_temp_file_always_removed_witness :
    ¬ (upload_file secure_filename "u1" (RunOutcome.encFail true)
        ⟨true, "movie.MP4", some 5, none, none⟩ ⟨[], []⟩).2.hasFile
      (upload_path_of secure_filename "u1" ⟨true, "movie.MP4", some 5, none, none⟩) :=
  upload_input_temp_file_always_removed secure_filename "u1" (RunOutcome.encFail true)
    ⟨true, "movie.MP4", some 5, none, none⟩ ⟨[], []⟩ (by decide)

/-- Claim C3: after the handler returns, a file exists at the intended
output path exactly when the conversion succeeded (response 200): the
output path is released on every non-success exit (encoder failure with a
partial output, or an unexpected fault), while a successful conversion
preserves the output file. -/
theorem conversion_output_exists_iff_success (sanitize : String → String)
    (uid : String) (run : RunOutcome) (req : UploadRequest) (fs : FS)
    (hfresh : ¬ fs.hasFile (converted_path_of uid)) :
    ((upload_file sanitize uid run req fs).2.hasFile (converted_path_of uid) ↔
      (upload_file sanitize uid run req fs).1.status = 200) := by
  have hne := upload_ne_converted sanitize uid req
  unfold upload_file
  cases hv : upload_validate req with
  | some r =>
      simp only [hv, hasFile_create_temp_dirs]
      rcases upload_validate_status req r hv with h | h <;> simp [hfresh, h]
  | none =>
      cases run with
      | success =>
          simp [hv, cleanup_file_some, FS.hasFile_removeFile, FS.hasFile_write,
            Ne.symm hne]
      | encFail partOut =>
          cases partOut <;>
            simp [hv, cleanup_file_some, FS.hasFile_removeFile, respConversionFailed]
      | fault saved partOut =>
          cases saved <;> cases partOut <;>
            simp [hv, cleanup_file_some, FS.hasFile_removeFile, respInternalFault]

theorem conversion_output_exists_iff_success_witness :
    ((upload_file secure_filename "u2" RunOutcome.success
        ⟨true, "clip.mov", some 7, some "low", some "720p"⟩ ⟨[], []⟩).2.hasFile
      (converted_path_of "u2") ↔
      (upload_file secure_filename "u2" RunOutcome.success
        ⟨true, "clip.mov", some 7, some "low", some "720p"⟩ ⟨[], []⟩).1.status = 200) :=
  conversion_output_exists_iff_success secure_filename "u2" RunOutcome.success
    ⟨true, "clip.mov", some 7, some "low", some "720p"⟩ ⟨[], []⟩ (by decide)

/-! ### Rate limiter lemmas -/

theorem mem_prune (window now ts : ℚ) (tss : List ℚ) :
    ts ∈ prune window now tss ↔ (ts ∈ tss ∧ now - ts < window) := by
  simp [prune]

/-- Pruning at a later instant absorbs earlier pruning: entries inside the
window at the later instant were inside it at the earlier one. -/
theorem prune_prune (window now now2 : ℚ) (h : now ≤ now2) (tss : List ℚ) :
    prune window now2 (prune window now tss) = prune window now2 tss := by
  unfold prune
  rw [List.filter_filter]
  apply List.filter_congr
  intro a _
  by_cases h2 : now2 - a < window
  · have h1 : now - a < window := by linarith
    simp [h1, h2]
  · simp [h2]

theorem rate_limit_step_reject (limit : Nat) (window now : ℚ) (tss : List ℚ)
    (h : limit ≤ (prune window now tss).length) :
    rate_limit_step limit window now tss = (false, prune window now tss) := by
  unfold rate_limit_step
  simp [h]

theorem rate_limit_step_accept (limit : Nat) (window now : ℚ) (tss : List ℚ)
    (h : (prune window now tss).length < limit) :
    rate_limit_step limit window now tss = (true, prune window now tss ++ [now]) := by
  unfold rate_limit_step
  rw [if_neg (by omega)]

/-- Any later admission call behaves identically on the pruned list and on
the original list. -/
theorem step_after_prune (limit : Nat) (window now now2 : ℚ) (h : now ≤ now2)
    (tss : List ℚ) :
    rate_limit_step limit window now2 (prune window now tss) =
      rate_limit_step limit window now2 tss := by
  unfold rate_limit_step
  rw [prune_prune window now now2 h]

/-- Once a client's stored list is at the limit and every stored entry
stays inside the window at every remaining call instant, every remaining
call is rejected and the store stays put. -/
theorem runAdmits_none_when_full (limit : Nat) (window : ℚ) :
    ∀ (times s : List ℚ),
      (∀ ts ∈ s, ∀ t ∈ times, t - ts < window) →
      limit ≤ s.length →
      runAdmits limit window times s = (0, s) := by
  intro times
  induction times with
  | nil => intro s _ _; rfl
  | cons t rest ih =>
      intro s hs hlen
      have hp : prune window t s = s :=
        List.filter_eq_self.mpr (by
          intro a ha
          simp only [decide_eq_true_eq]
          exact hs a ha t (List.mem_cons_self t rest))
      have hstep : rate_limit_step limit window t s = (false, s) := by
        rw [rate_limit_step_reject limit window t s (by rw [hp]; exact hlen), hp]
      simp only [runAdmits, hstep]
      rw [ih s (fun ts hts u hu => hs ts hts u (List.mem_cons_of_mem t hu)) hlen]
      simp

/-- Core bounded-acceptance invariant: starting from a store not above the
limit whose entries stay inside the window at all remaining instants, a
non-decreasing call sequence whose instants are pairwise closer than the
window gets at most limit - length further acceptances. -/
theorem runAdmits_le_aux (limit : Nat) (window : ℚ) :
    ∀ (times s : List ℚ),
      times.Pairwise (· ≤ ·) →
      (∀ a ∈ times, ∀ b ∈ times, b - a < window) →
      (∀ ts ∈ s, ∀ t ∈ times, t - ts < window) →
      s.length ≤ limit →
      (runAdmits limit window times s).1 + s.length ≤ limit := by
  intro times
  induction times with
  | nil =>
      intro s _ _ _ h
      simpa [runAdmits] using h
  | cons t rest ih =>
      intro s hpw hw hs hlen
      have hp : prune window t s = s :=
        List.filter_eq_self.mpr (by
          intro a ha
          simp only [decide_eq_true_eq]
          exact hs a ha t (List.mem_cons_self t rest))
      rcases Nat.lt_or_ge s.length limit with hlt | hge
      · have hstep : rate_limit_step limit window t s = (true, s ++ [t]) := by
          rw [rate_limit_step_accept limit window t s (by rw [hp]; exact hlt), hp]
        have ihres := ih (s ++ [t]) (List.pairwise_cons.mp hpw).2
          (fun a ha b hb => hw a (List.mem_cons_of_mem t ha) b (List.mem_cons_of_mem t hb))
          (by
            intro ts hts u hu
            rcases List.mem_append.mp hts with hin | hsing
            · exact hs ts hin u (List.mem_cons_of_mem t hu)
            · have : ts = t := by simpa using hsing
              subst this
              exact hw ts (List.mem_cons_self ts rest) u (List.mem_cons_of_mem ts hu))
          (by simpa using hlt)
        simp only [runAdmits, hstep]
        simp only [List.length_append, List.length_cons, List.length_nil] at ihres
        simp only [if_true]
        omega
      · have hfull := runAdmits_none_when_full limit window (t :: rest) s hs hge
        rw [hfull]
        omega

/-- Claim C9 counterexample: the claim says a rejecting call leaves the
client's stored list unchanged, but the code writes the pruned list back
before checking the limit.  With limit 1 and window 60, a call at time 100
against stored list [99, 30] is rejected, yet the stored list changes
(the stale entry 30 is dropped). -/
theorem rate_limit_reject_prunes_store_counterexample :
    (rate_limit_step 1 60 100 [99, 30]).1 = false
    ∧ (rate_limit_step 1 60 100 [99, 30]).2 ≠ [99, 30] := by
  norm_num [rate_limit_step, prune]

/-- Claim C9 (amended): a rejecting rate-limiter call records nothing: the
stored window becomes exactly the pruned list — in particular the rejected
call's own timestamp is not recorded — and the rewrite is observationally
invisible: any call at any later instant decides and stores exactly as it
would have against the pre-call list.  (The stored list itself may shrink
on a rejecting call, since the code writes the pruned list back before the
limit check.) -/
theorem rate_limit_reject_records_nothing (limit : Nat) (window now now2 : ℚ)
    (tss : List ℚ) (hrej : (rate_limit_step limit window now tss).1 = false)
    (hfresh : now ∉ tss) (hle : now ≤ now2) :
    (rate_limit_step limit window now tss).2 = prune window now tss
    ∧ now ∉ (rate_limit_step limit window now tss).2
    ∧ rate_limit_step limit window now2 (rate_limit_step limit window now tss).2 =
        rate_limit_step limit window now2 tss := by
  have h : limit ≤ (prune window now tss).length := by
    by_contra hc
    rw [rate_limit_step_accept limit window now tss (Nat.not_le.mp hc)] at hrej
    simp at hrej
  rw [rate_limit_step_reject limit window now tss h]
  refine ⟨rfl, ?_, step_after_prune limit window now now2 hle tss⟩
  intro hmem
  exact hfresh ((mem_prune window now now tss).mp hmem).1

theorem rate_limit_reject_records_nothing_witness :
    (rate_limit_step 1 60 100 [99, 30]).2 = prune 60 100 [99, 30]
    ∧ (100 : ℚ) ∉ (rate_limit_step 1 60 100 [99, 30]).2
    ∧ rate_limit_step 1 60 150 (rate_limit_step 1 60 100 [99, 30]).2 =
        rate_limit_step 1 60 150 [99, 30] :=
  rate_limit_reject_records_nothing 1 60 100 150 [99, 30]
    (by norm_num [rate_limit_step, prune]) (by norm_num) (by norm_num)

/-- Claim C4 counterexample: the claim describes the prune step as
discarding the timestamps older than now - window.  The code instead keeps
a timestamp ts exactly when now - ts < window, so it also discards a
timestamp exactly window old.  With limit 1, window 60, stored list [40]
and a call at time 100: 40 is not older than 100 - 60, so the step as
claimed keeps it and rejects, while the code discards it and accepts. -/
theorem rate_limit_prune_boundary_counterexample :
    (rate_limit_step 1 60 100 [40]).1 = true
    ∧ (rate_limit_step_claim 1 60 100 [40]).1 = false
    ∧ (40 : ℚ) ∈ (rate_limit_step_claim 1 60 100 [40]).2
    ∧ (40 : ℚ) ∉ (rate_limit_step 1 60 100 [40]).2 := by
  norm_num [rate_limit_step, rate_limit_step_claim, prune, prune_claim]

/-- Claim C4 (amended): the admit step first discards the client's
recorded timestamps that are at least window seconds old (keeping exactly
those with now - ts < window); if the remaining count is at least limit it
rejects without recording now, otherwise it appends now and accepts.
Consequently, if a client issues more than limit requests whose instants
all lie strictly within window seconds of one another, requests beyond the
limit-th are rejected; and a rejected request does not count toward any
future window (later calls behave exactly as if it had not happened). -/
theorem rate_limiter_amended_behavior (limit : Nat) (window now : ℚ)
    (tss times : List ℚ) (hpw : times.Pairwise (· ≤ ·))
    (hw : ∀ a ∈ times, ∀ b ∈ times, b - a < window) :
    (∀ ts, ts ∈ prune window now tss ↔ (ts ∈ tss ∧ now - ts < window))
    ∧ (limit ≤ (prune window now tss).length →
        rate_limit_step limit window now tss = (false, prune window now tss))
    ∧ ((prune window now tss).length < limit →
        rate_limit_step limit window now tss = (true, prune window now tss ++ [now]))
    ∧ (∀ now2, now ≤ now2 →
        rate_limit_step limit window now2 (prune window now tss) =
          rate_limit_step limit window now2 tss)
    ∧ (runAdmits limit window times []).1 ≤ limit := by
  refine ⟨fun ts => mem_prune window now ts tss,
    rate_limit_step_reject limit window now tss,
    rate_limit_step_accept limit window now tss,
    fun now2 h => step_after_prune limit window now now2 h tss, ?_⟩
  have h := runAdmits_le_aux limit window times [] hpw hw (by simp) (Nat.zero_le _)
  simpa using h

theorem rate_limiter_amended_behavior_witness :
    rate_limit_step 1 60 100 [99, 30] = (false, prune 60 100 [99, 30])
    ∧ rate_limit_step 1 60 150 (prune 60 100 [99, 30]) = rate_limit_step 1 60 150 [99, 30]
    ∧ (runAdmits 1 60 [0, 10, 20] []).1 ≤ 1 := by
  have h := rate_limiter_amended_behavior 1 60 100 [99, 30] [0, 10, 20]
    (by norm_num) (by norm_num [List.forall_mem_cons])
  exact ⟨h.2.1 (by norm_num [prune]), h.2.2.2.1 150 (by norm_num), h.2.2.2.2⟩

/-! ### Download handler claims -/

/-- Claim C2: a result token naming an existing converted file can be
downloaded exactly once: the first request (whose token-derived filename
the sanitizer leaves unchanged) returns 200 streaming that file, the file
is deleted after being sent, and an immediately following second request
for the same token returns 404 and changes nothing further. -/
theorem download_token_single_use (sanitize : String → String) (token : String)
    (fs : FS) (hsan : sanitize (token ++ ".mp4") = token ++ ".mp4")
    (hex : fs.hasFile ⟨CONVERTED_FOLDER, token ++ ".mp4"⟩) :
    (download_file sanitize (token ++ ".mp4") fs).1.status = 200
    ∧ (download_file sanitize (token ++ ".mp4") fs).1.sentFile =
        some ⟨CONVERTED_FOLDER, token ++ ".mp4"⟩
    ∧ ¬ (download_file sanitize (token ++ ".mp4") fs).2.hasFile
        ⟨CONVERTED_FOLDER, token ++ ".mp4"⟩
    ∧ (download_file sanitize (token ++ ".mp4")
        (download_file sanitize (token ++ ".mp4") fs).2).1.status = 404
    ∧ (download_file sanitize (token ++ ".mp4")
        (download_file sanitize (token ++ ".mp4") fs).2).2 =
        (download_file sanitize (token ++ ".mp4") fs).2 := by
  have hfirst : download_file sanitize (token ++ ".mp4") fs =
      (⟨200, token ++ ".mp4", some ⟨CONVERTED_FOLDER, token ++ ".mp4"⟩⟩,
        fs.removeFile ⟨CONVERTED_FOLDER, token ++ ".mp4"⟩) := by
    simp only [download_file]
    rw [hsan]
    simp [hex, cleanup_file_some]
  have hgone : ¬ (fs.removeFile ⟨CONVERTED_FOLDER, token ++ ".mp4"⟩).hasFile
      ⟨CONVERTED_FOLDER, token ++ ".mp4"⟩ := by
    simp [FS.hasFile_removeFile]
  have hsecond : download_file sanitize (token ++ ".mp4")
      (fs.removeFile ⟨CONVERTED_FOLDER, token ++ ".mp4"⟩) =
      (respFileNotFound, fs.removeFile ⟨CONVERTED_FOLDER, token ++ ".mp4"⟩) := by
    simp only [download_file]
    rw [hsan]
    simp [hgone]
  rw [hfirst]
  rw [hsecond]
  exact ⟨rfl, rfl, hgone, rfl, rfl⟩

theorem download_token_single_use_witness :
    (download_file secure_filename ("abc123" ++ ".mp4")
        ⟨[⟨"converted", "abc123.mp4"⟩], []⟩).1.status = 200
    ∧ (download_file secure_filename ("abc123" ++ ".mp4")
        ⟨[⟨"converted", "abc123.mp4"⟩], []⟩).1.sentFile =
        some ⟨CONVERTED_FOLDER, "abc123" ++ ".mp4"⟩
    ∧ ¬ (download_file secure_filename ("abc123" ++ ".mp4")
        ⟨[⟨"converted", "abc123.mp4"⟩], []⟩).2.hasFile
        ⟨CONVERTED_FOLDER, "abc123" ++ ".mp4"⟩
    ∧ (download_file secure_filename ("abc123" ++ ".mp4")
        (download_file secure_filename ("abc123" ++ ".mp4")
          ⟨[⟨"converted", "abc123.mp4"⟩], []⟩).2).1.status = 404
    ∧ (download_file secure_filename ("abc123" ++ ".mp4")
        (download_file secure_filename ("abc123" ++ ".mp4")
          ⟨[⟨"converted", "abc123.mp4"⟩], []⟩).2).2 =
        (download_file secure_filename ("abc123" ++ ".mp4")
          ⟨[⟨"converted", "abc123.mp4"⟩], []⟩).2 :=
  download_token_single_use secure_filename "abc123"
    ⟨[⟨"converted", "abc123.mp4"⟩], []⟩ (by decide) (by decide)

/-- Every character of the sanitizer output is an allowed filename
character. -/
theorem secure_filename_chars (s : String) (c : Char)
    (h : c ∈ (secure_filename s).data) : filename_char_ok c = true := by
  simp only [secure_filename] at h
  rw [List.mem_reverse] at h
  have h2 := (List.dropWhile_suffix strip_edge_char).sublist.subset h
  rw [List.mem_reverse] at h2
  have h3 := (List.dropWhile_suffix strip_edge_char).sublist.subset h2
  exact (List.mem_filter.mp h3).2

/-- Claim C6: the download handler re-sanitizes the requested filename
with the same sanitization used for uploads and, whenever sanitization
changes the value, rejects with 400 before any filesystem access: the
filesystem is returned unchanged and the response does not depend on it.
Moreover any file the handler ever streams lies under the converted output
directory, and a name the modelled werkzeug sanitizer leaves unchanged
contains no path separator; the path-traversal-shaped "../secret"
sanitizes to "secret" and is therefore rejected. -/
theorem download_sanitization_rejects_changed_names :
    (∀ (sanitize : String → String) (fname : String) (fs fs2 : FS),
      sanitize fname ≠ fname →
        (download_file sanitize fname fs).1 = respInvalidFilename
        ∧ (download_file sanitize fname fs).2 = fs
        ∧ (download_file sanitize fname fs).1 = (download_file sanitize fname fs2).1)
    ∧ (∀ (sanitize : String → String) (fname : String) (fs : FS) (p : FsPath),
        (download_file sanitize fname fs).1.sentFile = some p →
          p.dir = CONVERTED_FOLDER)
    ∧ (∀ fname : String, secure_filename fname = fname → ('/' : Char) ∉ fname.data)
    ∧ secure_filename "../secret" = "secret" := by
  refine ⟨?_, ?_, ?_, by decide⟩
  · intro sanitize fname fs fs2 h
    simp only [download_file]
    rw [if_pos h, if_pos h]
    exact ⟨rfl, rfl, rfl⟩
  · intro sanitize fname fs p
    simp only [download_file]
    by_cases h : sanitize fname ≠ fname
    · rw [if_pos h]
      intro hp
      exact absurd hp (by simp [respInvalidFilename])
    · rw [if_neg h]
      by_cases hm : fs.hasFile ⟨CONVERTED_FOLDER, sanitize fname⟩
      · rw [if_pos hm]
        intro hp
        simp only [Option.some.injEq] at hp
        rw [← hp]
      · rw [if_neg hm]
        intro hp
        exact absurd hp (by simp [respFileNotFound])
  · intro fname h hmem
    have hdata : fname.data = (secure_filename fname).data := congrArg String.data h.symm
    rw [hdata] at hmem
    have := secure_filename_chars fname '/' hmem
    exact absurd this (by decide)

theorem download_sanitization_rejects_changed_names_witness :
    (download_file secure_filename "../secret" ⟨[], []⟩).1 = respInvalidFilename
    ∧ (download_file secure_filename "../secret" ⟨[], []⟩).2 = (⟨[], []⟩ : FS)
    ∧ ('/' : Char) ∉ "good.mp4".data := by
  have h := download_sanitization_rejects_changed_names
  have h1 := h.1 secure_filename "../secret" ⟨[], []⟩ ⟨[⟨"converted", "x"⟩], []⟩ (by decide)
  exact ⟨h1.1, h1.2.1, h.2.2.1 "good.mp4" (by decide)⟩

/-! ### FFmpeg command claims -/

theorem crf_code_eq_spec (c : String) :
    (if c = "low" then ["-crf", "18"]
     else if c = "high" then ["-crf", "28"]
     else ["-crf", "23"]) = ["-crf", crf_preset_spec c] := by
  unfold crf_preset_spec
  by_cases h1 : c = "low" <;> by_cases h2 : c = "medium" <;> by_cases h3 : c = "high" <;>
    simp_all

theorem scale_code_eq_spec (r : String) :
    (if r = "1080p" then ["-vf", "scale=-2:1080"]
     else if r = "720p" then ["-vf", "scale=-2:720"]
     else if r = "480p" then ["-vf", "scale=-2:480"]
     else ([] : List String)) = scale_filter_spec r := by
  unfold scale_filter_spec
  by_cases h1 : r = "1080p" <;> by_cases h2 : r = "720p" <;> by_cases h3 : r = "480p" <;>
    simp_all

/-- Claim C7: the encoder invocation is built deterministically from the
two user options: the three compression values select three fixed CRF
presets with medium the balanced default, the three recognized resolutions
add a height-locked even-width scale filter and original adds none, and
any unrecognized compression or resolution value falls back to the
default (medium, original) command rather than being rejected; missing
form fields likewise default to medium and original, case-insensitively. -/
theorem ffmpeg_command_presets_and_fallbacks :
    (∀ up conv c r, build_ffmpeg_command up c r conv = ffmpeg_command_spec up c r conv)
    ∧ (∀ up conv r c, c ≠ "low" → c ≠ "high" →
        build_ffmpeg_command up c r conv = build_ffmpeg_command up "medium" r conv)
    ∧ (∀ up conv c r, r ≠ "1080p" → r ≠ "720p" → r ≠ "480p" →
        build_ffmpeg_command up c r conv = build_ffmpeg_command up c "original" conv)
    ∧ form_option none "medium" = "medium"
    ∧ form_option none "original" = "original"
    ∧ form_option (some "LOW") "medium" = "low"
    ∧ form_option (some "Original") "original" = "original" := by
  refine ⟨?_, ?_, ?_, by decide, by decide, by decide, by decide⟩
  · intro up conv c r
    unfold build_ffmpeg_command ffmpeg_command_spec
    rw [crf_code_eq_spec, scale_code_eq_spec]
    simp
  · intro up conv r c h1 h2
    unfold build_ffmpeg_command
    simp [h1, h2]
  · intro up conv c r h1 h2 h3
    unfold build_ffmpeg_command
    simp [h1, h2, h3]

theorem ffmpeg_command_presets_and_fallbacks_witness :
    build_ffmpeg_command "uploads/u.avi" "turbo" "4k" "converted/u.mp4" =
      build_ffmpeg_command "uploads/u.avi" "medium" "4k" "converted/u.mp4"
    ∧ build_ffmpeg_command "uploads/u.avi" "turbo" "4k" "converted/u.mp4" =
      build_ffmpeg_command "uploads/u.avi" "turbo" "original" "converted/u.mp4" := by
  have h := ffmpeg_command_presets_and_fallbacks
  exact ⟨h.2.1 "uploads/u.avi" "converted/u.mp4" "4k" "turbo" (by decide) (by decide),
    h.2.2.1 "uploads/u.avi" "converted/u.mp4" "turbo" "4k" (by decide) (by decide)
      (by decide)⟩

/-! ### Route-level claims -/

/-- Claim C8 counterexample: a validation-rejected request is not free of
filesystem mutation: the handler calls create_temp_dirs before validating,
so on a filesystem lacking the temporary directories, a request with no
file part is rejected with the no-file-part 400 response, yet the upload
and converted directories have been created. -/
theorem validation_reject_creates_dirs_counterexample :
    (upload_route secure_filename "u3" RunOutcome.success "1.2.3.4" 0
        ⟨false, "", none, none, none⟩ (fun _ => []) ⟨[], []⟩).1 = respNoFilePart
    ∧ (upload_route secure_filename "u3" RunOutcome.success "1.2.3.4" 0
        ⟨false, "", none, none, none⟩ (fun _ => []) ⟨[], []⟩).2.2 ≠ (⟨[], []⟩ : FS) := by
  constructor
  · rfl
  · decide

/-- Claim C8 (amended): a rate-limiter rejection happens in the decorator
before the handler runs and leaves the filesystem entirely unchanged;
a validation rejection creates no file and removes no file — no temp file
exists, so no cleanup is needed — and its only filesystem effect is the
idempotent creation of the upload and converted directories, which the
handler performs at entry, before validating. -/
theorem rejection_filesystem_effects (sanitize : String → String) (uid : String)
    (run : RunOutcome) (ip : String) (now : ℚ) (req : UploadRequest)
    (st : Store) (fs : FS) :
    ((rate_limit_step RATE_LIMIT_REQUESTS RATE_LIMIT_WINDOW_SECONDS now (st ip)).1 = false →
      (upload_route sanitize uid run ip now req st fs).1 = respRateLimited
      ∧ (upload_route sanitize uid run ip now req st fs).2.2 = fs)
    ∧ (∀ r : Resp,
        (rate_limit_step RATE_LIMIT_REQUESTS RATE_LIMIT_WINDOW_SECONDS now (st ip)).1 = true →
        upload_validate req = some r →
        (upload_route sanitize uid run ip now req st fs).1 = r
        ∧ (upload_route sanitize uid run ip now req st fs).2.2 = create_temp_dirs fs
        ∧ (create_temp_dirs fs).files = fs.files) := by
  constructor
  · intro h
    unfold upload_route
    simp [h]
  · intro r hadm hv
    unfold upload_route upload_file
    simp [hadm, hv, files_create_temp_dirs]

theorem rejection_filesystem_effects_witness :
    (upload_route secure_filename "u4" RunOutcome.success "9.9.9.9" 1
        ⟨true, "movie.mp4", none, none, none⟩ (fun _ => [0, 0, 0, 0, 0])
        ⟨[], ["uploads", "converted"]⟩).1 = respRateLimited
    ∧ (upload_route secure_filename "u4" RunOutcome.success "9.9.9.9" 1
        ⟨true, "movie.mp4", none, none, none⟩ (fun _ => [0, 0, 0, 0, 0])
        ⟨[], ["uploads", "converted"]⟩).2.2 = (⟨[], ["uploads", "converted"]⟩ : FS) :=
  (rejection_filesystem_effects secure_filename "u4" RunOutcome.success "9.9.9.9" 1
    ⟨true, "movie.mp4", none, none, none⟩ (fun _ => [0, 0, 0, 0, 0])
    ⟨[], ["uploads", "converted"]⟩).1
    (by norm_num [rate_limit_step, prune, RATE_LIMIT_REQUESTS, RATE_LIMIT_WINDOW_SECONDS])

/-- Claim C10: rate limiting applies only to the upload route: the index
and download handlers never consult or modify the per-client timestamp
store — they return the store unchanged and their response and resulting
filesystem do not depend on it — and neither can answer 429. -/
theorem rate_limit_only_on_upload (sanitize : String → String) (name : String)
    (st st2 : Store) (fs : FS) :
    (index_route st fs).2.1 = st
    ∧ (download_route sanitize name st fs).2.1 = st
    ∧ (index_route st fs).1 = (index_route st2 fs).1
    ∧ (index_route st fs).2.2 = (index_route st2 fs).2.2
    ∧ (download_route sanitize name st fs).1 = (download_route sanitize name st2 fs).1
    ∧ (download_route sanitize name st fs).2.2 = (download_route sanitize name st2 fs).2.2
    ∧ (index_route st fs).1.status ≠ 429
    ∧ (download_route sanitize name st fs).1.status ≠ 429 := by
  refine ⟨?_, rfl, ?_, ?_, rfl, rfl, ?_, ?_⟩
  · unfold index_route
    split <;> rfl
  · unfold index_route
    split <;> rfl
  · unfold index_route
    split <;> rfl
  · unfold index_route
    split <;> simp
  · unfold download_route download_file
    by_cases h : sanitize name ≠ name
    · rw [if_pos h]
      simp [respInvalidFilename]
    · rw [if_neg h]
      by_cases hm : fs.hasFile ⟨CONVERTED_FOLDER, sanitize name⟩
      · simp [hm]
      · simp [hm, respFileNotFound]

theorem rate_limit_only_on_upload_witness :
    (index_route (fun _ => [0]) ⟨[], []⟩).2.1 = (fun _ => ([0] : List ℚ))
    ∧ (download_route secure_filename "abc123.mp4" (fun _ => [0]) ⟨[], []⟩).2.1 =
        (fun _ => ([0] : List ℚ))
    ∧ (index_route (fun _ => [0]) ⟨[], []⟩).1.status ≠ 429
    ∧ (download_route secure_filename "abc123.mp4" (fun _ => [0]) ⟨[], []⟩).1.status ≠ 429 := by
  have h := rate_limit_only_on_upload secure_filename "abc123.mp4"
    (fun _ => [0]) (fun _ => [0]) ⟨[], []⟩
  exact ⟨h.1, h.2.1, h.2.2.2.2.2.2.1, h.2.2.2.2.2.2.2⟩

end MonConvert
